import Mathlib

/-!
Verification development for a real-time multiplayer tic-tac-toe server
(`server.js`).  The game logic (class `GameRoom`), the session directory
(the `rooms` and `players` maps) and the socket event handlers are
shallowly embedded as pure Lean functions; JavaScript `Map`s become
association lists that preserve insertion order, in-place mutation becomes
explicit state passing, and each socket handler returns the updated global
state together with the list of events it emits.
-/

namespace TicTacToe

/-- A mark on the board: the string values `'X'` and `'O'` in the source. -/
inductive Mark where
  | X : Mark
  | O : Mark
deriving DecidableEq, Repr

/-- A board cell: `null` in the source becomes `none`, a mark becomes `some`. -/
abbrev Cell := Option Mark

/-- Room status: the string values `'waiting'`, `'playing'`, `'finished'`. -/
inductive Status where
  | waiting : Status
  | playing : Status
  | finished : Status
deriving DecidableEq, Repr

/-- An entry of `GameRoom.players`: the object pushed by `addPlayer`. -/
structure PlayerEntry where
  socketId : String
  name : String
  symbol : Mark
deriving DecidableEq, Repr

/-- The mutable state of `class GameRoom` in `server.js`. -/
structure GameRoom where
  id : String
  isPublic : Bool
  creatorId : String
  players : List PlayerEntry
  board : List Cell
  currentPlayer : Mark
  status : Status
  winner : Option Mark
  moves : Nat
deriving DecidableEq, Repr

/-- The `GameRoom` constructor: empty players list, board of 9 `null` cells,
turn `X`, status `waiting`, no winner, zero moves. -/
def GameRoom.new (id : String) (isPublic : Bool) (creatorId : String) : GameRoom :=
  { id := id
    isPublic := isPublic
    creatorId := creatorId
    players := []
    board := List.replicate 9 none
    currentPlayer := Mark.X
    status := Status.waiting
    winner := none
    moves := 0 }

/-- The literal `winPatterns` array of `checkWinner`: 3 rows, 3 columns,
2 diagonals. -/
def winPatterns : List (Nat × Nat × Nat) :=
  [(0, 1, 2), (3, 4, 5), (6, 7, 8),
   (0, 3, 6), (1, 4, 7), (2, 5, 8),
   (0, 4, 8), (2, 4, 6)]

/-- Reading `board[i]` inside `checkWinner`: an out-of-range read yields
`undefined`, which like `null` fails the truthiness test, so both collapse
to `none`. -/
def cellAt (board : List Cell) (i : Nat) : Cell :=
  board.getD i none

/-- One iteration of the `checkWinner` loop: the test
`board[a] && board[a] === board[b] && board[a] === board[c]`,
returning `board[a]` when it passes. -/
def lineWin (board : List Cell) (t : Nat × Nat × Nat) : Option Mark :=
  match cellAt board t.1 with
  | none => none
  | some m =>
      if cellAt board t.2.1 = some m ∧ cellAt board t.2.2 = some m then some m
      else none

/-- `GameRoom.checkWinner`: scans `winPatterns` in order and returns the mark
of the first fully matched triple, `null` (here `none`) otherwise. -/
def checkWinner (board : List Cell) : Option Mark :=
  winPatterns.findSome? (lineWin board)

/-- `GameRoom.addPlayer`: fails when 2 players are already present; otherwise
pushes a new entry whose symbol is `X` when the list is empty and `O`
otherwise, and flips status to `playing` when the list reaches length 2. -/
def GameRoom.addPlayer (room : GameRoom) (socketId playerName : String) :
    Bool × GameRoom :=
  if room.players.length ≥ 2 then (false, room)
  else
    let symbol := if room.players.length = 0 then Mark.X else Mark.O
    let players := room.players ++ [⟨socketId, playerName, symbol⟩]
    let status := if players.length = 2 then Status.playing else room.status
    (true, { room with players := players, status := status })

/-- `GameRoom.reset`: clears the board, sets turn `X`, status `playing` when
exactly 2 players are present (else `waiting`), no winner, zero moves. -/
def GameRoom.reset (room : GameRoom) : GameRoom :=
  { room with
    board := List.replicate 9 none
    currentPlayer := Mark.X
    status := if room.players.length = 2 then Status.playing else Status.waiting
    winner := none
    moves := 0 }

/-- `GameRoom.removePlayer`: filters out every entry with the given socket id;
when the list becomes empty it sets status `waiting` and calls `reset`. -/
def GameRoom.removePlayer (room : GameRoom) (socketId : String) : GameRoom :=
  let room1 := { room with players := room.players.filter (fun p => p.socketId ≠ socketId) }
  if room1.players.length = 0 then
    GameRoom.reset { room1 with status := Status.waiting }
  else room1

/-- `GameRoom.makeMove`: fails when status is not `playing`, when
`board[index] !== null` (an out-of-range `index` reads `undefined`, which
also differs from `null`), when `players.find` yields no entry for the
socket id, or when the found entry's symbol is not the current turn's mark.
On success it writes the mark, increments `moves`, recomputes the winner,
and either finishes the game or toggles the turn. -/
def GameRoom.makeMove (room : GameRoom) (index : Nat) (socketId : String) :
    Bool × GameRoom :=
  if room.status ≠ Status.playing then (false, room)
  else if room.board[index]? ≠ some none then (false, room)
  else
    match room.players.find? (fun p => p.socketId == socketId) with
    | none => (false, room)
    | some player =>
        if player.symbol ≠ room.currentPlayer then (false, room)
        else
          let board := room.board.set index (some room.currentPlayer)
          let moves := room.moves + 1
          let winner := checkWinner board
          if winner.isSome ∨ moves = 9 then
            let room2 := { room with board := board, moves := moves, winner := winner, status := Status.finished }
            (true, room2)
          else
            let next := if room.currentPlayer = Mark.X then Mark.O else Mark.X
            let room2 := { room with board := board, moves := moves, winner := winner, currentPlayer := next }
            (true, room2)

/-- Values appearing in the plain JSON-like objects the server emits. -/
inductive JVal where
  | str : String → JVal
  | nat : Nat → JVal
  | bool : Bool → JVal
deriving DecidableEq, Repr

/-- The wire string of a status value. -/
def Status.toWire : Status → String
  | Status.waiting => "waiting"
  | Status.playing => "playing"
  | Status.finished => "finished"

/-- `GameRoom.getPublicInfo`: the lobby projection of a room, kept as an
ordered field-name/value list because the field names themselves are part of
the wire contract. -/
def GameRoom.getPublicInfo (room : GameRoom) : List (String × JVal) :=
  [("id", JVal.str room.id),
   ("isPublic", JVal.bool room.isPublic),
   ("playersCount", JVal.nat room.players.length),
   ("status", JVal.str room.status.toWire)]

/-- Modelled from the spec: the `publicSummary()` projection as §4.2 words it,
with a field literally named `playerCount`; `server.js` names the field
`playersCount`, and the two are compared in the C8 analysis. -/
def publicSummarySpec (room : GameRoom) : List (String × JVal) :=
  [("id", JVal.str room.id),
   ("isPublic", JVal.bool room.isPublic),
   ("playerCount", JVal.nat room.players.length),
   ("status", JVal.str room.status.toWire)]

/-- A record of the global `players` map: display name, bound room id and the
rematch flag (`readyForRematch` is absent, hence falsy, until first set). -/
structure PlayerRec where
  name : String
  roomId : Option String
  readyForRematch : Bool
deriving DecidableEq, Repr

/-- Lookup in a JavaScript `Map` modelled as an insertion-ordered
association list. -/
def lookupA {α : Type} (l : List (String × α)) (k : String) : Option α :=
  (l.find? (fun kv => kv.1 == k)).map (fun kv => kv.2)

/-- `Map.set`: overwrite in place when the key is present, append otherwise. -/
def setA {α : Type} (l : List (String × α)) (k : String) (v : α) :
    List (String × α) :=
  if l.any (fun kv => kv.1 == k) then
    l.map (fun kv => if kv.1 == k then (k, v) else kv)
  else l ++ [(k, v)]

/-- `Map.delete`: drop every entry with the key. -/
def eraseA {α : Type} (l : List (String × α)) (k : String) :
    List (String × α) :=
  l.filter (fun kv => ¬ kv.1 == k)

/-- `Map.values()` in insertion order. -/
def valuesA {α : Type} (l : List (String × α)) : List α :=
  l.map (fun kv => kv.2)

/-- The process-wide registries: `rooms` and `players` in `server.js`. -/
structure ServerState where
  rooms : List (String × GameRoom)
  players : List (String × PlayerRec)
deriving DecidableEq, Repr

/-- `getPublicRooms()`: every room with `isPublic` and status `waiting`,
projected through `getPublicInfo`. -/
def getPublicRooms (rooms : List (String × GameRoom)) :
    List (List (String × JVal)) :=
  ((valuesA rooms).filter (fun room => room.isPublic && room.status == Status.waiting)).map
    GameRoom.getPublicInfo

/-- One element of the `players` array inside the room-state snapshot. -/
structure SnapshotPlayer where
  name : String
  symbol : Mark
  isCurrentPlayer : Bool
deriving DecidableEq, Repr

/-- The room-state snapshot built by `updateRoomState` and emitted as the
`game-state` event. -/
structure RoomSnapshot where
  board : List Cell
  currentPlayer : Mark
  status : Status
  winner : Option Mark
  players : List SnapshotPlayer
  isDraw : Bool
deriving DecidableEq, Repr

/-- The snapshot computation of `updateRoomState`: in particular
`isDraw = (moves === 9 && !winner)`. -/
def roomSnapshot (room : GameRoom) : RoomSnapshot :=
  { board := room.board
    currentPlayer := room.currentPlayer
    status := room.status
    winner := room.winner
    players := room.players.map (fun p =>
      ⟨p.name, p.symbol, p.symbol == room.currentPlayer⟩)
    isDraw := room.moves == 9 && room.winner.isNone }

/-- The payload attached to an emitted event. -/
inductive Payload where
  | roomState : RoomSnapshot → Payload
  | publicRooms : List (List (String × JVal)) → Payload
  | roomCreated : String → Bool → Payload
  | roomJoined : String → Payload
  | errorMsg : String → Payload
  | empty : Payload
deriving DecidableEq, Repr

/-- An emitted transport event, by addressing mode: to one socket, to a room
broadcast group, to a room excluding the sender, or to every connection. -/
inductive Emit where
  | toSocket : String → String → Payload → Emit
  | toRoom : String → String → Payload → Emit
  | toRoomExcept : String → String → String → Payload → Emit
  | toAll : String → Payload → Emit
deriving DecidableEq, Repr

/-- `updateRoomState(roomId)`: emit a fresh snapshot to the room's broadcast
group when the room is still registered, nothing otherwise. -/
def updateRoomState (rooms : List (String × GameRoom)) (roomId : String) :
    List Emit :=
  match lookupA rooms roomId with
  | none => []
  | some room => [Emit.toRoom roomId "game-state" (Payload.roomState (roomSnapshot room))]

/-- The `join-lobby` handler: overwrite the caller's player record (fresh
record, no room, rematch flag unset) and send the caller the current
public-rooms list. -/
def handleJoinLobby (s : ServerState) (sid playerName : String) :
    ServerState × List Emit :=
  let s2 := { s with players := setA s.players sid ⟨playerName, none, false⟩ }
  (s2, [Emit.toSocket sid "public-rooms" (Payload.publicRooms (getPublicRooms s2.rooms))])

/-- The `create-room` handler.  `generateRoomId()` draws from `Math.random`,
so the generated id is passed in as an oracle argument; the handler then
creates the room, adds the caller, registers the room, binds the caller's
player record, and emits `room-created`, a global `public-rooms` broadcast
when the room is public, and the room-state snapshot. -/
def handleCreateRoom (s : ServerState) (sid roomId : String) (isPublic : Bool)
    (playerName : String) : ServerState × List Emit :=
  let room0 := GameRoom.new roomId isPublic sid
  let room := (room0.addPlayer sid playerName).2
  let rooms2 := setA s.rooms roomId room
  let players2 :=
    match lookupA s.players sid with
    | some p => setA s.players sid { p with roomId := some roomId }
    | none => s.players
  let e1 := [Emit.toSocket sid "room-created" (Payload.roomCreated roomId isPublic)]
  let e2 := if isPublic then [Emit.toAll "public-rooms" (Payload.publicRooms (getPublicRooms rooms2))] else []
  (⟨rooms2, players2⟩, e1 ++ e2 ++ updateRoomState rooms2 roomId)

/-- The `join-room` handler: error events for a missing room, a full room, or
a room whose game is in progress; otherwise add the caller, bind the player
record, emit `room-joined`, the snapshot, and (for a public room) the
public-rooms broadcast. -/
def handleJoinRoom (s : ServerState) (sid roomId playerName : String) :
    ServerState × List Emit :=
  match lookupA s.rooms roomId with
  | none => (s, [Emit.toSocket sid "error" (Payload.errorMsg "Room not found")])
  | some room =>
    if room.players.length ≥ 2 then
      (s, [Emit.toSocket sid "error" (Payload.errorMsg "Room is full")])
    else if room.status = Status.playing ∨ room.status = Status.finished then
      (s, [Emit.toSocket sid "error" (Payload.errorMsg "Game already in progress")])
    else
      let room2 := (room.addPlayer sid playerName).2
      let rooms2 := setA s.rooms roomId room2
      let players2 :=
        match lookupA s.players sid with
        | some p => setA s.players sid { p with roomId := some roomId }
        | none => s.players
      let e1 := [Emit.toSocket sid "room-joined" (Payload.roomJoined roomId)]
      let e2 := if room.isPublic then [Emit.toAll "public-rooms" (Payload.publicRooms (getPublicRooms rooms2))] else []
      (⟨rooms2, players2⟩, e1 ++ updateRoomState rooms2 roomId ++ e2)

/-- The `make-move` handler: silently ignore a missing room; delegate to
`GameRoom.makeMove` and broadcast the snapshot only on success (failures
produce no event at all). -/
def handleMakeMove (s : ServerState) (sid roomId : String) (index : Nat) :
    ServerState × List Emit :=
  match lookupA s.rooms roomId with
  | none => (s, [])
  | some room =>
    let r := room.makeMove index sid
    if r.1 then
      let rooms2 := setA s.rooms roomId r.2
      (⟨rooms2, s.players⟩, updateRoomState rooms2 roomId)
    else (s, [])

/-- The `request-rematch` handler: ignored unless the room exists and is
finished; mark the caller's player record ready; when the room holds two
player entries and every one of them maps to a ready player record, reset
the room, clear both flags and broadcast the snapshot, otherwise notify the
rest of the room. -/
def handleRequestRematch (s : ServerState) (sid roomId : String) :
    ServerState × List Emit :=
  match lookupA s.rooms roomId with
  | none => (s, [])
  | some room =>
    if room.status ≠ Status.finished then (s, [])
    else
      let players1 :=
        match lookupA s.players sid with
        | some p => setA s.players sid { p with readyForRematch := true }
        | none => s.players
      if room.players.length = 2 then
        let allReady := room.players.all (fun p =>
          ((lookupA players1 p.socketId).map (fun q => q.readyForRematch)).getD false)
        if allReady then
          let room2 := room.reset
          let players2 := room.players.foldl (fun acc p =>
            match lookupA acc p.socketId with
            | some q => setA acc p.socketId { q with readyForRematch := false }
            | none => acc) players1
          let rooms2 := setA s.rooms roomId room2
          (⟨rooms2, players2⟩, updateRoomState rooms2 roomId)
        else
          (⟨s.rooms, players1⟩, [Emit.toRoomExcept roomId sid "rematch-requested" Payload.empty])
      else (⟨s.rooms, players1⟩, [])

/-- The `leave-room` handler: no-op without a bound player record; remove the
caller from the room, broadcast the snapshot while the room is still
registered, delete the room when it emptied, then emit the public-rooms
broadcast whenever the room was public (even if it was just deleted), and
unbind the caller's record. -/
def handleLeaveRoom (s : ServerState) (sid : String) : ServerState × List Emit :=
  match lookupA s.players sid with
  | none => (s, [])
  | some player =>
    match player.roomId with
    | none => (s, [])
    | some roomId =>
      let players2 := setA s.players sid { player with roomId := none }
      match lookupA s.rooms roomId with
      | none => (⟨s.rooms, players2⟩, [])
      | some room =>
        let room2 := room.removePlayer sid
        let rooms1 := setA s.rooms roomId room2
        let e1 := updateRoomState rooms1 roomId
        let rooms2 := if room2.players.length = 0 then eraseA rooms1 roomId else rooms1
        let e2 := if room.isPublic then [Emit.toAll "public-rooms" (Payload.publicRooms (getPublicRooms rooms2))] else []
        (⟨rooms2, players2⟩, e1 ++ e2)

/-- The `disconnect` handler: the same room cleanup as `leave-room`, except
that the public-rooms broadcast sits in the `else` branch of the emptiness
test, and the caller's player record is deleted outright at the end. -/
def handleDisconnect (s : ServerState) (sid : String) : ServerState × List Emit :=
  let r :=
    match lookupA s.players sid with
    | none => (s, ([] : List Emit))
    | some player =>
      match player.roomId with
      | none => (s, [])
      | some roomId =>
        match lookupA s.rooms roomId with
        | none => (s, [])
        | some room =>
          let room2 := room.removePlayer sid
          let rooms1 := setA s.rooms roomId room2
          let e1 := updateRoomState rooms1 roomId
          if room2.players.length = 0 then
            (⟨eraseA rooms1 roomId, s.players⟩, e1)
          else
            let e2 := if room.isPublic then [Emit.toAll "public-rooms" (Payload.publicRooms (getPublicRooms rooms1))] else []
            (⟨rooms1, s.players⟩, e1 ++ e2)
  ({ r.1 with players := eraseA r.1.players sid }, r.2)

/-- An inbound client event; `createRoom` carries the id produced by
`generateRoomId` as an oracle argument. -/
inductive Event where
  | joinLobby : String → String → Event
  | createRoom : String → String → Bool → String → Event
  | joinRoom : String → String → String → Event
  | makeMove : String → String → Nat → Event
  | requestRematch : String → String → Event
  | leaveRoom : String → Event
  | disconnect : String → Event
deriving DecidableEq, Repr

/-- Dispatch one inbound event to its handler (run-to-completion semantics:
each event is handled atomically). -/
def step (s : ServerState) : Event → ServerState × List Emit
  | Event.joinLobby sid n => handleJoinLobby s sid n
  | Event.createRoom sid rid pub n => handleCreateRoom s sid rid pub n
  | Event.joinRoom sid rid n => handleJoinRoom s sid rid n
  | Event.makeMove sid rid i => handleMakeMove s sid rid i
  | Event.requestRematch sid rid => handleRequestRematch s sid rid
  | Event.leaveRoom sid => handleLeaveRoom s sid
  | Event.disconnect sid => handleDisconnect s sid

/-- Run a sequence of inbound events from a state, keeping the final state. -/
def run (s : ServerState) (es : List Event) : ServerState :=
  es.foldl (fun acc e => (step acc e).1) s

/-- The empty server state: both registries empty, as at process start. -/
def initState : ServerState := ⟨[], []⟩

/-- The room the `leave-room` and `disconnect` handlers would operate on: the
record bound to the connection, then the room registered under its room id. -/
def boundRoom (s : ServerState) (sid : String) : Option GameRoom :=
  match lookupA s.players sid with
  | none => none
  | some p =>
    match p.roomId with
    | none => none
    | some roomId => lookupA s.rooms roomId

/-- Mark `m` occupies all three cells of one of the 8 winning triples. -/
def winsLine (board : List Cell) (m : Mark) : Prop :=
  ∃ t ∈ winPatterns,
    cellAt board t.1 = some m ∧ cellAt board t.2.1 = some m ∧ cellAt board t.2.2 = some m

/-- The claimed room invariant, amended: at most two players; two players
force status playing or finished; an empty room is waiting. -/
def RoomInv (room : GameRoom) : Prop :=
  room.players.length ≤ 2 ∧
  (room.players.length = 2 → room.status = Status.playing ∨ room.status = Status.finished) ∧
  (room.players.length = 0 → room.status = Status.waiting)

/-- A board whose top row is filled with `X`. -/
def boardTop : List Cell :=
  [some Mark.X, some Mark.X, some Mark.X, none, none, none, none, none, none]

/-- A playing room in which both player entries carry the same connection id
(reachable: the join-room handler never rejects the seated connection),
with the turn on the second entry's mark. -/
def dupRoom : GameRoom :=
  { id := "R"
    isPublic := false
    creatorId := "a"
    players := [⟨"a", "P1", Mark.X⟩, ⟨"a", "P2", Mark.O⟩]
    board := List.replicate 9 none
    currentPlayer := Mark.O
    status := Status.playing
    winner := none
    moves := 0 }

/-- An ordinary two-player room in mid-game. -/
def twoRoom : GameRoom :=
  { id := "R"
    isPublic := false
    creatorId := "a"
    players := [⟨"a", "A", Mark.X⟩, ⟨"b", "B", Mark.O⟩]
    board := [some Mark.X, none, none, none, none, none, none, none, none]
    currentPlayer := Mark.O
    status := Status.playing
    winner := none
    moves := 1 }

/-- A finished room with a winner on the board. -/
def finRoom : GameRoom :=
  { twoRoom with
    board := boardTop
    currentPlayer := Mark.X
    status := Status.finished
    winner := some Mark.X
    moves := 5 }

/-- A public waiting room holding its creator only. -/
def lobbyRoom : GameRoom :=
  { GameRoom.new "R" true "a" with players := [⟨"a", "A", Mark.X⟩] }

/-- A server state holding `lobbyRoom` and its creator's player record. -/
def oneState : ServerState :=
  ⟨[("R", lobbyRoom)], [("a", ⟨"A", some "R", false⟩)]⟩

/-- A server state holding `twoRoom` and both players' records. -/
def twoState : ServerState :=
  ⟨[("R", twoRoom)], [("a", ⟨"A", some "R", false⟩), ("b", ⟨"B", some "R", false⟩)]⟩

/-- Event trace for the rematch-flag analysis: a full game in room `R1`, one
rematch request by `a`, both players leave, then a fresh room `R2` where `a`
and `c` play a full game.  No `request-rematch` event in this trace ever
targets `R2`. -/
def staleFlagPre : List Event :=
  [Event.joinLobby "a" "A", Event.joinLobby "b" "B", Event.joinLobby "c" "C",
   Event.createRoom "a" "R1" false "A", Event.joinRoom "b" "R1" "B",
   Event.makeMove "a" "R1" 0, Event.makeMove "b" "R1" 3,
   Event.makeMove "a" "R1" 1, Event.makeMove "b" "R1" 4,
   Event.makeMove "a" "R1" 2,
   Event.requestRematch "a" "R1",
   Event.leaveRoom "a", Event.leaveRoom "b",
   Event.createRoom "a" "R2" false "A", Event.joinRoom "c" "R2" "C",
   Event.makeMove "a" "R2" 0, Event.makeMove "c" "R2" 3,
   Event.makeMove "a" "R2" 1, Event.makeMove "c" "R2" 4,
   Event.makeMove "a" "R2" 2]

/-- Recognise a `request-rematch` event aimed at a given room id. -/
def isRematchFor (roomId : String) : Event → Bool
  | Event.requestRematch _ rid => rid == roomId
  | _ => false

theorem find?_append_of_none {α : Type} (l₁ l₂ : List α) (p : α → Bool)
    (h : l₁.find? p = none) : (l₁ ++ l₂).find? p = l₂.find? p := by
  induction l₁ with
  | nil => simp
  | cons a l ih =>
    cases hpa : p a with
    | true =>
      rw [List.find?_cons_of_pos _ hpa] at h
      exact absurd h (by simp)
    | false =>
      have hneg : ¬ (p a = true) := by simp [hpa]
      rw [List.find?_cons_of_neg _ hneg] at h
      rw [List.cons_append, List.find?_cons_of_neg _ hneg]
      exact ih h

theorem find?_map_set {α : Type} (l : List (String × α)) (k : String) (v : α) :
    ((l.map (fun kv => if kv.1 == k then (k, v) else kv)).find? (fun kv => kv.1 == k)) =
      if l.any (fun kv => kv.1 == k) then some (k, v) else none := by
  induction l with
  | nil => simp
  | cons a l ih =>
    by_cases h : a.1 = k
    · rw [List.map_cons, if_pos (by simp [h])]
      rw [List.find?_cons_of_pos _ (by simp)]
      rw [if_pos (by simp [List.any_cons, h])]
    · rw [List.map_cons, if_neg (by simp [h])]
      rw [List.find?_cons_of_neg _ (by simp [h])]
      rw [ih]
      have hb : (a.1 == k) = false := by simp [h]
      rw [List.any_cons, hb, Bool.false_or]

theorem lookupA_setA {α : Type} (l : List (String × α)) (k : String) (v : α) :
    lookupA (setA l k v) k = some v := by
  unfold lookupA setA
  by_cases h : l.any (fun kv => kv.1 == k)
  · rw [if_pos h, find?_map_set, if_pos h]
    rfl
  · rw [if_neg h, find?_append_of_none]
    · rw [List.find?_cons_of_pos _ (by simp)]
      rfl
    · rw [List.find?_eq_none]
      intro x hx
      simp only [List.any_eq_true, not_exists, not_and] at h
      simpa using h x hx

theorem eraseA_map_set {α : Type} (l : List (String × α)) (k : String) (v : α) :
    eraseA (l.map (fun kv => if kv.1 == k then (k, v) else kv)) k = eraseA l k := by
  unfold eraseA
  induction l with
  | nil => simp
  | cons a l ih =>
    by_cases h : a.1 = k
    · rw [List.map_cons, if_pos (by simp [h])]
      rw [List.filter_cons_of_neg (by simp), List.filter_cons_of_neg (by simp [h])]
      exact ih
    · rw [List.map_cons, if_neg (by simp [h])]
      rw [List.filter_cons_of_pos (by simp [h]), List.filter_cons_of_pos (by simp [h])]
      rw [ih]

theorem eraseA_setA {α : Type} (l : List (String × α)) (k : String) (v : α) :
    eraseA (setA l k v) k = eraseA l k := by
  unfold setA
  by_cases h : l.any (fun kv => kv.1 == k)
  · rw [if_pos h, eraseA_map_set]
  · rw [if_neg h]
    unfold eraseA
    rw [List.filter_append, List.filter_cons_of_neg (by simp), List.filter_nil, List.append_nil]

theorem lineWin_eq_some {board : List Cell} {t : Nat × Nat × Nat} {m : Mark} :
    lineWin board t = some m ↔
      (cellAt board t.1 = some m ∧ cellAt board t.2.1 = some m ∧ cellAt board t.2.2 = some m) := by
  unfold lineWin
  cases h : cellAt board t.1 with
  | none => simp [h]
  | some m2 =>
    dsimp only
    by_cases h2 : cellAt board t.2.1 = some m2 ∧ cellAt board t.2.2 = some m2
    · constructor
      · intro hEq
        rw [if_pos h2] at hEq
        cases hEq
        exact ⟨rfl, h2.1, h2.2⟩
      · rintro ⟨h1, -, -⟩
        cases h1
        rw [if_pos h2]
    · constructor
      · intro hEq
        rw [if_neg h2] at hEq
        cases hEq
      · rintro ⟨h1, hb, hc⟩
        cases h1
        exact absurd ⟨hb, hc⟩ h2

theorem findSome?_eq_some_exists {α β : Type} {l : List α} {f : α → Option β} {b : β}
    (h : l.findSome? f = some b) : ∃ a ∈ l, f a = some b := by
  induction l with
  | nil => simp [List.findSome?] at h
  | cons a l ih =>
    rw [List.findSome?_cons] at h
    cases hfa : f a with
    | some b2 =>
      rw [hfa] at h
      cases h
      exact ⟨a, List.mem_cons_self a l, hfa⟩
    | none =>
      rw [hfa] at h
      obtain ⟨x, hx, hfx⟩ := ih h
      exact ⟨x, List.mem_cons_of_mem a hx, hfx⟩

theorem findSome?_eq_none_forall {α β : Type} {l : List α} {f : α → Option β}
    (h : l.findSome? f = none) : ∀ a ∈ l, f a = none := by
  induction l with
  | nil => simp
  | cons a l ih =>
    rw [List.findSome?_cons] at h
    cases hfa : f a with
    | some b2 => rw [hfa] at h; cases h
    | none =>
      rw [hfa] at h
      intro x hx
      rcases List.mem_cons.1 hx with rfl | hx2
      · exact hfa
      · exact ih h x hx2

theorem removePlayer_eq (room : GameRoom) (sid : String) :
    room.removePlayer sid =
      if (room.players.filter (fun p => p.socketId ≠ sid)).length = 0 then
        GameRoom.reset { room with players := room.players.filter (fun p => p.socketId ≠ sid), status := Status.waiting }
      else { room with players := room.players.filter (fun p => p.socketId ≠ sid) } := rfl

/-- C2: `checkWinner` scans exactly the 8 winning triples (3 rows, 3 columns,
2 diagonals): whenever it returns a mark, that mark occupies all three cells
of one of the triples, and it returns `none` precisely on the boards where no
triple is fully matched — so every board with a fully matched triple reports
a winner and none without one does. -/
theorem checkWinner_exhaustive (board : List Cell) :
    (∀ m, checkWinner board = some m → winsLine board m) ∧
    (checkWinner board = none ↔ ∀ m, ¬ winsLine board m) := by
  constructor
  · intro m h
    unfold checkWinner at h
    obtain ⟨t, ht, hline⟩ := findSome?_eq_some_exists h
    exact ⟨t, ht, lineWin_eq_some.1 hline⟩
  · constructor
    · intro h m hw
      unfold checkWinner at h
      obtain ⟨t, ht, h3⟩ := hw
      have hnone := findSome?_eq_none_forall h t ht
      have hsome : lineWin board t = some m := lineWin_eq_some.2 h3
      rw [hnone] at hsome
      cases hsome
    · intro h
      cases hc : checkWinner board with
      | none => rfl
      | some m =>
        unfold checkWinner at hc
        obtain ⟨t, ht, hline⟩ := findSome?_eq_some_exists hc
        exact absurd ⟨t, ht, lineWin_eq_some.1 hline⟩ (h m)

/-- Witness for C2 at a concrete board whose top row is filled with `X`. -/
theorem checkWinner_exhaustive_witness : winsLine boardTop Mark.X :=
  (checkWinner_exhaustive boardTop).1 Mark.X (by decide)

/-- C5: in the room-state snapshot broadcast to clients, the draw indicator
is true exactly when the move count is 9 and no winner is set; in particular
it is false in every state with a winner. -/
theorem snapshot_isDraw_iff (room : GameRoom) :
    ((roomSnapshot room).isDraw = true ↔ (room.moves = 9 ∧ room.winner = none)) ∧
    (∀ m, room.winner = some m → (roomSnapshot room).isDraw = false) := by
  constructor
  · unfold roomSnapshot
    simp [Option.isNone_iff_eq_none]
  · intro m hm
    unfold roomSnapshot
    simp [hm]

/-- Witness for C5 at a finished room whose winner is `X`. -/
theorem snapshot_isDraw_iff_witness : (roomSnapshot finRoom).isDraw = false :=
  (snapshot_isDraw_iff finRoom).2 Mark.X (by decide)

/-- C6: `addPlayer` on a full room fails and changes nothing; a successful
call appends a mark-`X` entry when the list was empty and a mark-`O` entry
when it held one player (by current list length only), and the status is set
to `playing` exactly when the list reaches length 2 (it is left untouched
when the list reaches length 1). -/
theorem addPlayer_capacity_and_marks (room : GameRoom) (sid n : String) :
    (room.players.length ≥ 2 → room.addPlayer sid n = (false, room)) ∧
    (room.players.length = 0 →
      (room.addPlayer sid n).1 = true ∧
      (room.addPlayer sid n).2.players = room.players ++ [⟨sid, n, Mark.X⟩] ∧
      (room.addPlayer sid n).2.status = room.status) ∧
    (room.players.length = 1 →
      (room.addPlayer sid n).1 = true ∧
      (room.addPlayer sid n).2.players = room.players ++ [⟨sid, n, Mark.O⟩] ∧
      (room.addPlayer sid n).2.status = Status.playing) := by
  unfold GameRoom.addPlayer
  refine ⟨?_, ?_, ?_⟩
  · intro h
    rw [if_pos h]
  · intro h
    rw [if_neg (by omega)]
    simp [h]
  · intro h
    rw [if_neg (by omega)]
    simp [h]

/-- Witness for C6: the second player joining a one-player room gets `O` and
flips the room to playing. -/
theorem addPlayer_capacity_and_marks_witness :
    (lobbyRoom.addPlayer "b" "B").1 = true ∧
    (lobbyRoom.addPlayer "b" "B").2.players = lobbyRoom.players ++ [⟨"b", "B", Mark.O⟩] ∧
    (lobbyRoom.addPlayer "b" "B").2.status = Status.playing :=
  (addPlayer_capacity_and_marks lobbyRoom "b" "B").2.2 (by decide)

/-- C7: `removePlayer` on a 2-player room that keeps at least one entry
removes exactly the entries matching the socket id and leaves board, status,
moves, turn and winner untouched; any removal that empties the player list
resets the room: status waiting, empty board, turn `X`, no winner, zero
moves. -/
theorem removePlayer_frame_and_reset (room : GameRoom) (sid : String) :
    (room.players.length = 2 → (room.removePlayer sid).players.length ≠ 0 →
      ((room.removePlayer sid).players = room.players.filter (fun p => p.socketId ≠ sid) ∧
       (room.removePlayer sid).board = room.board ∧
       (room.removePlayer sid).status = room.status ∧
       (room.removePlayer sid).moves = room.moves ∧
       (room.removePlayer sid).currentPlayer = room.currentPlayer ∧
       (room.removePlayer sid).winner = room.winner)) ∧
    ((room.removePlayer sid).players.length = 0 →
      ((room.removePlayer sid).status = Status.waiting ∧
       (room.removePlayer sid).board = List.replicate 9 none ∧
       (room.removePlayer sid).currentPlayer = Mark.X ∧
       (room.removePlayer sid).winner = none ∧
       (room.removePlayer sid).moves = 0)) := by
  by_cases h : (room.players.filter (fun p => p.socketId ≠ sid)).length = 0
  · rw [removePlayer_eq, if_pos h]
    constructor
    · intro _ hne
      exact absurd h (by simpa [GameRoom.reset] using hne)
    · intro _
      unfold GameRoom.reset
      refine ⟨?_, rfl, rfl, rfl, rfl⟩
      have h9 : (List.filter (fun p => !decide (p.socketId = sid)) room.players).length = 0 := by
        simpa using h
      dsimp only
      rw [if_neg (by simp [h9])]
  · rw [removePlayer_eq, if_neg h]
    constructor
    · intro _ _
      exact ⟨rfl, rfl, rfl, rfl, rfl, rfl⟩
    · intro h0
      exact absurd h0 h

/-- Witness for C7: removing one of `twoRoom`'s two players keeps status and
moves. -/
theorem removePlayer_frame_and_reset_witness :
    (twoRoom.removePlayer "b").players.length = 1 ∧
    (twoRoom.removePlayer "b").status = twoRoom.status ∧
    (twoRoom.removePlayer "b").moves = twoRoom.moves :=
  ⟨by decide,
   ((removePlayer_frame_and_reset twoRoom "b").1 (by decide) (by decide)).2.2.1,
   ((removePlayer_frame_and_reset twoRoom "b").1 (by decide) (by decide)).2.2.2.1⟩

/-- C1 counterexample: in a playing room whose two entries share one socket
id (reachable, see the join-room analysis) with the turn on `O`, some player
entry matches the caller and carries the current mark, the target cell is
empty and in range, yet `makeMove` fails, because `players.find` stops at the
first matching entry, whose mark is `X`. -/
theorem makeMove_some_entry_counterexample :
    dupRoom.status = Status.playing ∧
    dupRoom.board[(0 : Nat)]? = some none ∧
    (∃ p ∈ dupRoom.players, p.socketId = "a" ∧ p.symbol = dupRoom.currentPlayer) ∧
    (dupRoom.makeMove 0 "a").1 = false := by decide

/-- C1 amended: on a 9-cell board, `makeMove` succeeds iff the status is
playing, the index denotes an empty cell within the 9-cell range, and the
FIRST player entry found for the connection id carries the current turn's
mark; every failing call (out-of-range index included) leaves the whole room
— board, move count, turn, status, winner — unchanged. -/
theorem makeMove_success_iff_frame (room : GameRoom) (index : Nat) (sid : String)
    (hb : room.board.length = 9) :
    ((room.makeMove index sid).1 = true ↔
      (room.status = Status.playing ∧ index < 9 ∧ room.board[index]? = some none ∧
        ∃ p, room.players.find? (fun q => q.socketId == sid) = some p ∧
          p.symbol = room.currentPlayer)) ∧
    ((room.makeMove index sid).1 = false → (room.makeMove index sid).2 = room) := by
  rcases hE : room.makeMove index sid with ⟨b, r⟩
  unfold GameRoom.makeMove at hE
  split at hE
  · next h1 =>
    cases hE
    simp [h1]
  · next h1 =>
    split at hE
    · next h2 =>
      cases hE
      simp [h2]
    · next h2 =>
      rw [not_not] at h1 h2
      split at hE
      · next hf =>
        cases hE
        simp [h1, h2, hf]
      · next player hf =>
        split at hE
        · next h4 =>
          cases hE
          simp [h1, h2, hf, h4]
        · next h4 =>
          rw [not_not] at h4
          have hlt : index < 9 := by
            by_contra hge
            rw [List.getElem?_eq_none (by omega)] at h2
            cases h2
          dsimp only at hE
          by_cases hw : ((checkWinner (room.board.set index (some room.currentPlayer))).isSome = true ∨ room.moves + 1 = 9)
          · rw [if_pos hw] at hE
            cases hE
            simp [h1, h2, hf, h4, hlt]
          · rw [if_neg hw] at hE
            cases hE
            simp [h1, h2, hf, h4, hlt]

/-- Witness for C1 amended: a legal move by `O` succeeds, and a move onto the
occupied cell 0 fails leaving the room unchanged. -/
theorem makeMove_success_iff_frame_witness :
    (twoRoom.makeMove 1 "b").1 = true ∧ (twoRoom.makeMove 0 "b").2 = twoRoom :=
  ⟨(makeMove_success_iff_frame twoRoom 1 "b" (by decide)).1.mpr
     ⟨by decide, by decide, by decide, ⟨"b", "B", Mark.O⟩, by decide, by decide⟩,
   (makeMove_success_iff_frame twoRoom 0 "b" (by decide)).2 (by decide)⟩

theorem makeMove_shape (room : GameRoom) (index : Nat) (sid : String) :
    (room.makeMove index sid).2.players = room.players ∧
    ((room.makeMove index sid).2 = room ∨
      (room.status = Status.playing ∧
        ((room.makeMove index sid).2.status = Status.playing ∨
         (room.makeMove index sid).2.status = Status.finished))) := by
  rcases hE : room.makeMove index sid with ⟨b, r⟩
  unfold GameRoom.makeMove at hE
  split at hE
  · next h1 => cases hE; exact ⟨rfl, Or.inl rfl⟩
  · next h1 =>
    split at hE
    · next h2 => cases hE; exact ⟨rfl, Or.inl rfl⟩
    · next h2 =>
      rw [not_not] at h1
      split at hE
      · next hf => cases hE; exact ⟨rfl, Or.inl rfl⟩
      · next player hf =>
        split at hE
        · next h4 => cases hE; exact ⟨rfl, Or.inl rfl⟩
        · next h4 =>
          dsimp only at hE
          by_cases hw : ((checkWinner (room.board.set index (some room.currentPlayer))).isSome = true ∨ room.moves + 1 = 9)
          · rw [if_pos hw] at hE
            cases hE
            exact ⟨rfl, Or.inr ⟨h1, Or.inr rfl⟩⟩
          · rw [if_neg hw] at hE
            cases hE
            exact ⟨rfl, Or.inr ⟨h1, Or.inl h1⟩⟩

/-- C4 counterexample: a 2-player playing room satisfies the claimed
invariant, yet removing one player leaves a 1-player room whose status is
still `playing`, violating the conjunct `players.length < 2 → status =
waiting`; the invariant is therefore not preserved by `removePlayer`. -/
theorem roomInv_removePlayer_counterexample :
    twoRoom.players.length = 2 ∧
    (twoRoom.status = Status.playing ∨ twoRoom.status = Status.finished) ∧
    (twoRoom.removePlayer "b").players.length = 1 ∧
    (twoRoom.removePlayer "b").players.length < 2 ∧
    (twoRoom.removePlayer "b").status ≠ Status.waiting := by decide

/-- C4 amended: the invariant that survives every operation replaces
`players.length < 2 → waiting` by `players.length = 0 → waiting` (and
records the capacity bound): it holds of a fresh room and is preserved by
`addPlayer`, `removePlayer`, `makeMove` and `reset`; the original conjunct
fails only on the 1-player rooms `removePlayer` leaves behind. -/
theorem roomInv_invariant :
    (∀ id pub cid, RoomInv (GameRoom.new id pub cid)) ∧
    (∀ room sid n, RoomInv room → RoomInv (room.addPlayer sid n).2) ∧
    (∀ room sid, RoomInv room → RoomInv (room.removePlayer sid)) ∧
    (∀ room index sid, RoomInv room → RoomInv (room.makeMove index sid).2) ∧
    (∀ room, RoomInv room → RoomInv room.reset) := by
  refine ⟨?_, ?_, ?_, ?_, ?_⟩
  · intro id pub cid
    simp [RoomInv, GameRoom.new]
  · rintro room sid n ⟨hle, h2i, h0i⟩
    unfold GameRoom.addPlayer
    by_cases h : room.players.length ≥ 2
    · rw [if_pos h]
      exact ⟨hle, h2i, h0i⟩
    · rw [if_neg h]
      refine ⟨?_, ?_, ?_⟩
      · dsimp only
        rw [List.length_append, List.length_singleton]
        omega
      · intro hlen
        dsimp only at hlen ⊢
        rw [if_pos hlen]
        exact Or.inl rfl
      · intro hlen
        dsimp only at hlen
        rw [List.length_append, List.length_singleton] at hlen
        omega
  · rintro room sid ⟨hle, h2i, h0i⟩
    rw [removePlayer_eq]
    by_cases h : (room.players.filter (fun p => p.socketId ≠ sid)).length = 0
    · rw [if_pos h]
      unfold GameRoom.reset
      refine ⟨?_, ?_, fun _ => ?_⟩
      · dsimp only
        rw [h]
        omega
      · intro hlen
        dsimp only at hlen
        rw [h] at hlen
        simp at hlen
      · dsimp only
        rw [if_neg (by rw [h]; decide)]
    · rw [if_neg h]
      refine ⟨?_, ?_, ?_⟩
      · exact le_trans (List.length_filter_le _ _) hle
      · intro hlen
        dsimp only at hlen
        have hp2 : room.players.length = 2 :=
          le_antisymm hle (hlen ▸ List.length_filter_le _ _)
        exact h2i hp2
      · intro hlen
        dsimp only at hlen
        exact absurd hlen h
  · rintro room index sid ⟨hle, h2i, h0i⟩
    obtain ⟨hpl, hst⟩ := makeMove_shape room index sid
    rcases hst with heq | ⟨hplay, hstat⟩
    · rw [heq]
      exact ⟨hle, h2i, h0i⟩
    · refine ⟨?_, fun _ => hstat, ?_⟩
      · rw [hpl]
        exact hle
      · intro hlen
        rw [hpl] at hlen
        rw [h0i hlen] at hplay
        cases hplay
  · rintro room ⟨hle, h2i, h0i⟩
    unfold GameRoom.reset
    refine ⟨hle, ?_, ?_⟩
    · intro hlen
      dsimp only at hlen ⊢
      rw [if_pos hlen]
      exact Or.inl rfl
    · intro hlen
      dsimp only at hlen ⊢
      rw [if_neg (by omega)]

/-- Witness for C4 amended: the invariant, established on a fresh room, is
carried through an addPlayer call by the preservation theorem. -/
theorem roomInv_invariant_witness :
    RoomInv ((GameRoom.new "R" true "a").addPlayer "a" "A").2 :=
  roomInv_invariant.2.1 (GameRoom.new "R" true "a") "a" "A"
    (roomInv_invariant.1 "R" true "a")

/-- C8 counterexample: the lobby projection of a public waiting room carries
its player count under the field name `playersCount`, not `playerCount` as
claimed; the projection also differs from the spec-worded shape. -/
theorem publicSummary_field_name_counterexample :
    lobbyRoom.getPublicInfo ∈ getPublicRooms [("R", lobbyRoom)] ∧
    lookupA lobbyRoom.getPublicInfo "playerCount" = none ∧
    lookupA lobbyRoom.getPublicInfo "playersCount" = some (JVal.nat 1) ∧
    lobbyRoom.getPublicInfo ≠ publicSummarySpec lobbyRoom := by decide

/-- C8 amended: `getPublicRooms` returns exactly the projections of the rooms
with `isPublic` and status waiting; each projection's fields are exactly
`id`, `isPublic`, `playersCount` and `status` (the count under the name
`playersCount`), and no `board` field — no board content — appears. -/
theorem getPublicRooms_spec :
    (∀ (rooms : List (String × GameRoom)) (x : List (String × JVal)),
      x ∈ getPublicRooms rooms ↔
        ∃ room ∈ valuesA rooms, room.isPublic = true ∧ room.status = Status.waiting ∧
          x = room.getPublicInfo) ∧
    (∀ room : GameRoom,
      room.getPublicInfo.map Prod.fst = ["id", "isPublic", "playersCount", "status"] ∧
      lookupA room.getPublicInfo "board" = none) := by
  constructor
  · intro rooms x
    unfold getPublicRooms
    rw [List.mem_map]
    constructor
    · rintro ⟨room, hmem, rfl⟩
      rw [List.mem_filter] at hmem
      obtain ⟨hv, hcond⟩ := hmem
      rw [Bool.and_eq_true, beq_iff_eq] at hcond
      exact ⟨room, hv, hcond.1, hcond.2, rfl⟩
    · rintro ⟨room, hv, hpub, hwait, rfl⟩
      refine ⟨room, List.mem_filter.2 ⟨hv, ?_⟩, rfl⟩
      rw [Bool.and_eq_true, beq_iff_eq]
      exact ⟨hpub, hwait⟩
  · intro room
    exact ⟨rfl, rfl⟩

/-- Witness for C8 amended: the projection of `lobbyRoom` is listed for a
registry holding it. -/
theorem getPublicRooms_spec_witness :
    lobbyRoom.getPublicInfo ∈ getPublicRooms [("R2", lobbyRoom)] :=
  (getPublicRooms_spec.1 [("R2", lobbyRoom)] lobbyRoom.getPublicInfo).2
    ⟨lobbyRoom, by decide, by decide, by decide, rfl⟩

/-- C10: neither `addPlayer` nor the join-room handler compares the joining
connection id against the seated players: joining a one-player waiting room
from the connection already seated succeeds, and the room then holds two
entries with the same connection id, marks `X` and `O`, status playing. -/
theorem joinRoom_duplicate_connection (s : ServerState) (rid n : String)
    (p : PlayerEntry) (room : GameRoom)
    (hr : lookupA s.rooms rid = some room) (hp : room.players = [p])
    (hw : room.status = Status.waiting) (hx : p.symbol = Mark.X) :
    (∃ room2, lookupA (handleJoinRoom s p.socketId rid n).1.rooms rid = some room2 ∧
      room2.players = [p, ⟨p.socketId, n, Mark.O⟩] ∧
      room2.players.map PlayerEntry.socketId = [p.socketId, p.socketId] ∧
      room2.players.map PlayerEntry.symbol = [Mark.X, Mark.O] ∧
      room2.status = Status.playing) ∧
    Emit.toSocket p.socketId "room-joined" (Payload.roomJoined rid) ∈
      (handleJoinRoom s p.socketId rid n).2 := by
  unfold handleJoinRoom GameRoom.addPlayer
  rw [hr]
  dsimp only
  rw [hp, hw]
  rw [if_neg (by simp)]
  rw [if_neg (by decide)]
  dsimp only
  rw [if_neg (by simp)]
  dsimp only
  rw [if_neg (by simp), if_pos (by simp)]
  refine ⟨⟨_, lookupA_setA _ _ _, rfl, rfl, by simp [hx], rfl⟩, ?_⟩
  simp

/-- Witness for C10: the creator of a fresh one-player public room joins its
own room and fills both seats. -/
theorem joinRoom_duplicate_connection_witness :
    (∃ room2, lookupA (handleJoinRoom oneState "a" "R" "A2").1.rooms "R" = some room2 ∧
      room2.players = [⟨"a", "A", Mark.X⟩, ⟨"a", "A2", Mark.O⟩] ∧
      room2.players.map PlayerEntry.socketId = ["a", "a"] ∧
      room2.players.map PlayerEntry.symbol = [Mark.X, Mark.O] ∧
      room2.status = Status.playing) ∧
    Emit.toSocket "a" "room-joined" (Payload.roomJoined "R") ∈
      (handleJoinRoom oneState "a" "R" "A2").2 :=
  joinRoom_duplicate_connection oneState "R" "A2" ⟨"a", "A", Mark.X⟩ lobbyRoom
    (by decide) (by decide) (by decide) (by decide)

/-- C3, failing trace: in the run of `staleFlagPre` no rematch request ever
targets room `R2`, which ends finished, yet player `a` still carries a
`readyForRematch` flag set in the previous room `R1` (never cleared on
leaving); a single further `request-rematch` by `c` then resets `R2` — board
cleared, move count zeroed, status playing — although only one of its two
players requested a rematch since the room was created.  This contradicts
the mutual-consent rematch protocol the spec and the project documentation
describe. -/
theorem rematch_stale_flag_trace :
    staleFlagPre.filter (isRematchFor "R2") = [] ∧
    (lookupA (run initState staleFlagPre).rooms "R2").map GameRoom.status =
      some Status.finished ∧
    (lookupA (run initState staleFlagPre).players "a").map PlayerRec.readyForRematch =
      some true ∧
    (lookupA (run initState (staleFlagPre ++ [Event.requestRematch "c" "R2"])).rooms "R2").map
        GameRoom.status = some Status.playing ∧
    (lookupA (run initState (staleFlagPre ++ [Event.requestRematch "c" "R2"])).rooms "R2").map
        GameRoom.board = some (List.replicate 9 none) ∧
    (lookupA (run initState (staleFlagPre ++ [Event.requestRematch "c" "R2"])).rooms "R2").map
        GameRoom.moves = some 0 := by
  refine ⟨rfl, rfl, rfl, rfl, rfl, rfl⟩

/-- C9 counterexample: the last player of a public room departs; via
`leave-room` the server still emits the `public-rooms` broadcast after
deleting the room, via `disconnect` it does not, so the two handlers do not
emit the same broadcasts in the room-emptying case. -/
theorem disconnect_broadcast_counterexample :
    (handleLeaveRoom oneState "a").2 ≠ (handleDisconnect oneState "a").2 ∧
    Emit.toAll "public-rooms" (Payload.publicRooms []) ∈ (handleLeaveRoom oneState "a").2 ∧
    Emit.toAll "public-rooms" (Payload.publicRooms []) ∉ (handleDisconnect oneState "a").2 := by
  decide

/-- C9 amended: `disconnect` always performs the same room cleanup as
`leave-room` — the resulting room registries are equal — and its player
registry equals `leave-room`'s with the caller's record deleted; the emitted
broadcasts coincide whenever the caller's departure leaves its room
non-empty, and differ only in the room-emptying case (where `leave-room`
alone emits `public-rooms` for a public room). -/
theorem disconnect_refines_leaveRoom (s : ServerState) (sid : String) :
    (handleDisconnect s sid).1.rooms = (handleLeaveRoom s sid).1.rooms ∧
    (handleDisconnect s sid).1.players = eraseA (handleLeaveRoom s sid).1.players sid ∧
    ((∀ room, boundRoom s sid = some room → (room.removePlayer sid).players.length ≠ 0) →
      (handleDisconnect s sid).2 = (handleLeaveRoom s sid).2) := by
  unfold handleDisconnect handleLeaveRoom boundRoom
  cases hp : lookupA s.players sid with
  | none => exact ⟨rfl, rfl, fun _ => rfl⟩
  | some player =>
    dsimp only
    cases hrid : player.roomId with
    | none => exact ⟨rfl, rfl, fun _ => rfl⟩
    | some roomId =>
      dsimp only
      cases hr : lookupA s.rooms roomId with
      | none =>
        dsimp only
        exact ⟨rfl, (eraseA_setA _ _ _).symm, fun _ => rfl⟩
      | some room =>
        dsimp only
        by_cases h0 : (room.removePlayer sid).players.length = 0
        · simp only [if_pos h0]
          exact ⟨trivial, (eraseA_setA _ _ _).symm, fun h => absurd h0 (h room rfl)⟩
        · simp only [if_neg h0]
          exact ⟨trivial, (eraseA_setA _ _ _).symm, fun _ => trivial⟩

/-- Witness for C9 amended: in `twoState` the departure leaves one player
behind, and the two handlers emit identical broadcasts. -/
theorem disconnect_refines_leaveRoom_witness :
    (handleDisconnect twoState "a").2 = (handleLeaveRoom twoState "a").2 := by
  apply (disconnect_refines_leaveRoom twoState "a").2.2
  intro room hroom
  rw [(by decide : boundRoom twoState "a" = some twoRoom)] at hroom
  cases hroom
  decide

end TicTacToe
